import Mathlib

/-!
Verification development for the bilingual term-extraction pipeline:
shallow embedding of the token counter, text splitter, checkpoint
manager and term deduplicator, together with theorems settling the
specified properties.

Strings from the Python source are modelled as Lean String or as
List Char (for the splitter, where index arithmetic over characters
matters).  Machine integers are modelled as Nat: every counter in the
source starts at 0 and only ever increases by 1, far from any overflow.
-/

/-- JSON-representable values, the value domain of the configuration
dictionaries and of everything the checkpoint serializer touches.
Numbers are modelled as integers (the configurations in the source
hold strings, integers and booleans). -/
inductive JVal where
  | null : JVal
  | bool : Bool → JVal
  | num : Int → JVal
  | str : String → JVal
  | arr : List JVal → JVal
  | obj : List (String × JVal) → JVal

/-- Characters in the CJK unified-ideograph range, the range matched by
the Python regex class from u4e00 to u9fff in TokenCounter.count_tokens. -/
def isCJK (c : Char) : Bool := 0x4e00 ≤ c.toNat && c.toNat ≤ 0x9fff

/-- TokenCounter.count_tokens in the tiktoken-unavailable configuration
(src/text_splitter.py lines 90-112): the heuristic counts CJK characters
at weight one half and all other characters at weight one quarter and
truncates.  The Python expression int(chinese * 0.5 + other * 0.25) is
exact binary floating point for all realistic sizes (both weights are
powers of two), so it equals Nat division of 2 * chinese + other by 4.
The empty string returns 0 through the early return, which the formula
also gives. -/
def count_tokens (text : List Char) : Nat :=
  let chinese := (text.filter isCJK).length
  let other := text.length - chinese
  (2 * chinese + other) / 4

theorem count_tokens_append_le (t u : List Char) :
    count_tokens t ≤ count_tokens (t ++ u) := by
  unfold count_tokens
  simp only [List.filter_append, List.length_append]
  apply Nat.div_le_div_right
  have hct : (t.filter isCJK).length ≤ t.length := List.length_filter_le _ _
  have hcu : (u.filter isCJK).length ≤ u.length := List.length_filter_le _ _
  omega

-- =========================================================================
-- A small matcher for the fixed boundary patterns of the text splitter.
-- Every pattern in src/text_splitter.py is a concatenation of character
-- classes, each bare, starred or plus-quantified, so a pattern is modelled
-- as a list of such items and matched greedily with backtracking, which is
-- exactly the semantics of the Python re module on these patterns.
-- =========================================================================

/-- One item of a boundary pattern: a character class, either matched once,
zero or more times (greedy) or one or more times (greedy). -/
inductive RItem where
  | one : (Char → Bool) → RItem
  | many0 : (Char → Bool) → RItem
  | many1 : (Char → Bool) → RItem

/-- Greedy matching of a starred character class under a continuation:
consume as many class characters as possible, backtracking one character
at a time when the continuation fails. -/
def matchMany (p : Char → Bool) (k : List Char → Option (List Char)) :
    List Char → Option (List Char)
  | [] => k []
  | c :: rest =>
    if p c then
      match matchMany p k rest with
      | some r => some r
      | none => k (c :: rest)
    else k (c :: rest)

/-- Match a sequence of pattern items at the head of the input, returning
the remaining suffix of the first (greedy) successful match. -/
def matchSeq : List RItem → List Char → (List Char → Option (List Char)) →
    Option (List Char)
  | [], s, k => k s
  | RItem.one p :: its, s, k =>
    match s with
    | [] => none
    | c :: rest => if p c then matchSeq its rest k else none
  | RItem.many0 p :: its, s, k => matchMany p (fun r => matchSeq its r k) s
  | RItem.many1 p :: its, s, k =>
    match s with
    | [] => none
    | c :: rest =>
      if p c then matchMany p (fun r => matchSeq its r k) rest else none

/-- Number of characters consumed by a match of the pattern at the head of
the input, if any. -/
def matchLen (pat : List RItem) (s : List Char) : Option Nat :=
  match matchSeq pat s some with
  | some rest => some (s.length - rest.length)
  | none => none

/-- All non-overlapping matches of a pattern, scanning left to right: the
Python re.finditer semantics.  Returns the list of pairs of start offset
and end offset.  Every pattern of the splitter consumes at least one
character; a zero-length match is treated as no match, keeping the scan
well founded. -/
def finditerAux (pat : List RItem) : Nat → List Char → Nat → List (Nat × Nat)
  | 0, _, _ => []
  | _, [], _ => []
  | fuel + 1, c :: rest, pos =>
    match matchLen pat (c :: rest) with
    | some n =>
      if n = 0 then finditerAux pat fuel rest (pos + 1)
      else (pos, pos + n) :: finditerAux pat fuel ((c :: rest).drop n) (pos + n)
    | none => finditerAux pat fuel rest (pos + 1)

/-- The scan of finditerAux started with fuel equal to the input length,
which is exactly enough: every step consumes at least one character. -/
def finditer (pat : List RItem) (s : List Char) (pos : Nat) :
    List (Nat × Nat) :=
  finditerAux pat s.length s pos

/-- Replace every non-overlapping match of a pattern by a fixed replacement:
the Python re.sub semantics on these patterns. -/
def regexSubAux (pat : List RItem) (repl : List Char) :
    Nat → List Char → List Char
  | 0, _ => []
  | _, [] => []
  | fuel + 1, c :: rest =>
    match matchLen pat (c :: rest) with
    | some n =>
      if n = 0 then c :: regexSubAux pat repl fuel rest
      else repl ++ regexSubAux pat repl fuel ((c :: rest).drop n)
    | none => c :: regexSubAux pat repl fuel rest

/-- The scan of regexSubAux started with fuel equal to the input length,
which is exactly enough: every step consumes at least one character. -/
def regexSub (pat : List RItem) (repl : List Char) (s : List Char) :
    List Char :=
  regexSubAux pat repl s.length s

-- =========================================================================
-- Character classes and the eight boundary patterns
-- (TextSplitter._init_split_patterns, src/text_splitter.py lines 155-166)
-- =========================================================================

/-- The Python regex class backslash-s under Unicode matching, also used to
model str.strip and str.split: ASCII whitespace, the file and record
separators, and the Unicode space code points. -/
def isSpaceChar (c : Char) : Bool :=
  let n := c.toNat
  (0x09 ≤ n && n ≤ 0x0d) || n == 0x20 || (0x1c ≤ n && n ≤ 0x1f) ||
  n == 0x85 || n == 0xa0 || n == 0x1680 || (0x2000 ≤ n && n ≤ 0x200a) ||
  n == 0x2028 || n == 0x2029 || n == 0x202f || n == 0x205f || n == 0x3000

/-- The newline character. -/
def isNewline (c : Char) : Bool := c == '\n'

/-- The CJK sentence-ending punctuation class of the splitter patterns. -/
def isSentencePunct (c : Char) : Bool :=
  c == '。' || c == '！' || c == '？' || c == '；'

/-- The CJK clause-separator class of the splitter patterns. -/
def isClausePunct (c : Char) : Bool := c == '，' || c == '、'

/-- Space or tab, the class of the blank-run normalisation in
TextSplitter._preprocess_text. -/
def isBlankOrTab (c : Char) : Bool := c == ' ' || c == '\t'

/-- The priority-ordered boundary patterns of _init_split_patterns:
multi blank line, double newline, sentence end plus newline, sentence end
plus spaces, clause separator plus newline, single newline, clause
separator plus spaces, whitespace run. -/
def split_patterns : List (List RItem) :=
  [ [RItem.one isNewline, RItem.many0 isSpaceChar, RItem.one isNewline,
     RItem.many0 isSpaceChar, RItem.many1 isNewline],
    [RItem.one isNewline, RItem.many0 isSpaceChar, RItem.one isNewline],
    [RItem.one isSentencePunct, RItem.many0 isSpaceChar, RItem.one isNewline],
    [RItem.one isSentencePunct, RItem.many1 isSpaceChar],
    [RItem.one isClausePunct, RItem.many0 isSpaceChar, RItem.one isNewline],
    [RItem.one isNewline],
    [RItem.one isClausePunct, RItem.many1 isSpaceChar],
    [RItem.many1 isSpaceChar] ]

-- =========================================================================
-- Text preprocessing (TextSplitter._preprocess_text, lines 352-364)
-- =========================================================================

/-- The substitution of carriage-return-newline or lone carriage return by
a newline. -/
def normalizeNewlines : List Char → List Char
  | [] => []
  | '\r' :: '\n' :: rest => '\n' :: normalizeNewlines rest
  | '\r' :: rest => '\n' :: normalizeNewlines rest
  | c :: rest => c :: normalizeNewlines rest

/-- Python str.strip with no argument: drop leading and trailing
whitespace. -/
def pyStripChars (s : List Char) : List Char :=
  ((s.dropWhile isSpaceChar).reverse.dropWhile isSpaceChar).reverse

/-- TextSplitter._preprocess_text: normalise newlines, collapse runs of
three or more newlines separated by whitespace to a blank line, collapse
runs of spaces and tabs to one space, then strip. -/
def preprocess_text (text : List Char) : List Char :=
  pyStripChars
    (regexSub [RItem.many1 isBlankOrTab] [' ']
      (regexSub (split_patterns.headD []) ['\n', '\n']
        (normalizeNewlines text)))

-- =========================================================================
-- Data structures of the splitter
-- =========================================================================

/-- TextChunk (src/text_splitter.py lines 34-46).  The metadata dictionary
only ever holds the keys merged and has_overlap, modelled as two boolean
fields that default to false, matching the empty dictionary default. -/
structure TextChunk where
  content : List Char
  start_pos : Nat
  end_pos : Nat
  tokens : Nat
  chunk_id : Nat
  merged : Bool := false
  has_overlap : Bool := false
deriving DecidableEq, Repr

/-- SplitResult overlap_info dictionary (built in _create_split_result);
the empty-input and single-chunk paths leave it absent. -/
structure OverlapInfo where
  enabled : Bool
  target_tokens : Nat
  chunks_with_overlap : Nat
deriving DecidableEq, Repr

/-- SplitResult (src/text_splitter.py lines 49-56). -/
structure SplitResult where
  chunks : List TextChunk
  total_chunks : Nat
  total_tokens : Nat
  original_length : Nat
  overlap_info : Option OverlapInfo
deriving DecidableEq, Repr

/-- TextSplitter configuration.  The Python constructor (lines 134-153)
only stores the two numbers, builds the fixed pattern list and logs; it
contains no validation of any kind, so construction is a total function. -/
structure TextSplitter where
  max_tokens : Nat
  overlap_tokens : Nat
deriving DecidableEq, Repr

/-- TextSplitter.__init__: store the configuration unchanged. -/
def TextSplitter.init (max_tokens overlap_tokens : Nat) : TextSplitter :=
  { max_tokens := max_tokens, overlap_tokens := overlap_tokens }

-- =========================================================================
-- The splitting algorithm (TextSplitter, src/text_splitter.py)
-- =========================================================================

/-- int(max_tokens * 3), the target character offset of _find_chunk_end. -/
def target_pos (s : TextSplitter) : Nat := 3 * s.max_tokens

/-- Absolute distance of a match end offset from the target position, the
minimisation key of the Python min call in _find_chunk_end. -/
def matchDist (s : TextSplitter) (m : Nat × Nat) : Nat :=
  ((m.2 : Int) - (target_pos s : Int)).natAbs

/-- Python min with a key function over a nonempty list: the first
minimiser wins ties. -/
def bestMatch (s : TextSplitter) (m : Nat × Nat) (ms : List (Nat × Nat)) :
    Nat × Nat :=
  ms.foldl (fun acc x => if matchDist s x < matchDist s acc then x else acc) m

/-- The pattern loop of _find_chunk_end (lines 406-422): for the first
pattern having matches inside the window whose best match passes the token
check, the corresponding absolute cut position; none when every pattern
fails. -/
def findValidatedCut (s : TextSplitter) (text : List Char)
    (start_pos max_end : Nat) : List (List RItem) → Option Nat
  | [] => none
  | pat :: ps =>
    match finditer pat ((text.drop start_pos).take (max_end - start_pos)) 0 with
    | [] => findValidatedCut s text start_pos max_end ps
    | m :: ms =>
      if count_tokens ((text.drop start_pos).take (bestMatch s m ms).2) ≤
          s.max_tokens then
        some (start_pos + (bestMatch s m ms).2)
      else findValidatedCut s text start_pos max_end ps

/-- TextSplitter._find_chunk_end (lines 395-424): the character window is
start_pos plus 4 times max_tokens; when the window reaches the end of the
text the whole remainder is taken; otherwise the first validated pattern
cut, falling back to the window cap. -/
def find_chunk_end (s : TextSplitter) (text : List Char) (start_pos : Nat) :
    Nat :=
  if text.length ≤ min (start_pos + 4 * s.max_tokens) text.length then
    text.length
  else
    match findValidatedCut s text start_pos
        (min (start_pos + 4 * s.max_tokens) text.length) split_patterns with
    | some c => c
    | none => min (start_pos + 4 * s.max_tokens) text.length

/-- The while loop of _split_by_patterns (lines 366-393).  current_pos is
set to the returned end position each iteration; with max_tokens at least
one every iteration strictly advances, so fuel text length plus one runs
the loop to completion.  The fuel only models termination of the Python
loop, which spins forever when the end position fails to advance. -/
def split_by_patterns_loop (s : TextSplitter) (text : List Char) :
    Nat → Nat → Nat → List TextChunk
  | 0, _, _ => []
  | fuel + 1, current_pos, chunk_id =>
    if current_pos < text.length then
      let end_pos := find_chunk_end s text current_pos
      if current_pos < end_pos then
        let chunk_content :=
          pyStripChars ((text.drop current_pos).take (end_pos - current_pos))
        if chunk_content ≠ [] then
          { content := chunk_content, start_pos := current_pos,
            end_pos := end_pos, tokens := count_tokens chunk_content,
            chunk_id := chunk_id } ::
            split_by_patterns_loop s text fuel end_pos (chunk_id + 1)
        else split_by_patterns_loop s text fuel end_pos chunk_id
      else split_by_patterns_loop s text fuel end_pos chunk_id
    else []

/-- TextSplitter._split_by_patterns. -/
def split_by_patterns (s : TextSplitter) (text : List Char) : List TextChunk :=
  split_by_patterns_loop s text (text.length + 1) 0 0

/-- max(100, max_tokens // 4), the small-chunk threshold of
_merge_small_chunks. -/
def min_chunk_tokens (s : TextSplitter) : Nat := max 100 (s.max_tokens / 4)

/-- The merge loop of _merge_small_chunks (lines 470-495): a chunk below
the threshold is merged with its immediate successor when the sum of their
recorded token counts fits max_tokens; the merged content is re-measured. -/
def mergeSmallLoop (s : TextSplitter) : List TextChunk → List TextChunk
  | [] => []
  | [c] => [c]
  | c1 :: c2 :: rest =>
    if c1.tokens < min_chunk_tokens s ∧ c1.tokens + c2.tokens ≤ s.max_tokens then
      let mergedContent := c1.content ++ '\n' :: '\n' :: c2.content
      { content := mergedContent, start_pos := c1.start_pos,
        end_pos := c2.end_pos, tokens := count_tokens mergedContent,
        chunk_id := c1.chunk_id, merged := true } :: mergeSmallLoop s rest
    else c1 :: mergeSmallLoop s (c2 :: rest)

/-- TextSplitter._merge_small_chunks (lines 461-497). -/
def merge_small_chunks (s : TextSplitter) (chunks : List TextChunk) :
    List TextChunk :=
  if chunks.length ≤ 1 then chunks else mergeSmallLoop s chunks

/-- min(overlap_tokens, max_tokens // 4), the effective overlap budget of
_extract_overlap_text (line 541): the configured overlap is clamped at use
site, never at construction. -/
def target_overlap_tokens (s : TextSplitter) : Nat :=
  min s.overlap_tokens (s.max_tokens / 4)

/-- Python str.split with no argument: words between whitespace runs. -/
def splitWordsAux : List Char → List Char → List (List Char)
  | [], acc => if acc = [] then [] else [acc.reverse]
  | c :: rest, acc =>
    if isSpaceChar c then
      if acc = [] then splitWordsAux rest []
      else acc.reverse :: splitWordsAux rest []
    else splitWordsAux rest (c :: acc)

/-- Python str.split with no argument. -/
def pySplitWords (s : List Char) : List (List Char) := splitWordsAux s []

/-- The word-accumulation loop of _extract_overlap_text: take words while
the running token total stays within the target. -/
def takeOverlapWords (target : Nat) : List (List Char) → Nat → List (List Char)
  | [], _ => []
  | w :: ws, current =>
    let wt := count_tokens w
    if target < current + wt then []
    else w :: takeOverlapWords target ws (current + wt)

/-- Python str.join with a single space over a word list. -/
def joinWords (ws : List (List Char)) : List Char := (ws.intersperse [' ']).flatten

/-- TextSplitter._extract_overlap_text (lines 539-570). -/
def extract_overlap_text (s : TextSplitter) (text : List Char)
    (from_end : Bool) : List Char :=
  let target := target_overlap_tokens s
  let words := pySplitWords text
  if from_end then joinWords ((takeOverlapWords target words.reverse 0).reverse)
  else joinWords (takeOverlapWords target words 0)

/-- The visual delimiter inserted between overlap context and chunk
content: newline, three dots, newline. -/
def overlapSep : List Char := ['\n', '.', '.', '.', '\n']

/-- The loop of _add_overlap (lines 499-537): each chunk is prefixed by the
tail overlap of the previous original chunk and suffixed by the head
overlap of the next original chunk, then re-measured and flagged. -/
def addOverlapLoop (s : TextSplitter) :
    Option TextChunk → List TextChunk → List TextChunk
  | _, [] => []
  | prev, c :: rest =>
    let content1 :=
      match prev with
      | some p =>
        let ov := extract_overlap_text s p.content true
        if ov ≠ [] then ov ++ overlapSep ++ c.content else c.content
      | none => c.content
    let content2 :=
      match rest with
      | next :: _ =>
        let ov := extract_overlap_text s next.content false
        if ov ≠ [] then content1 ++ overlapSep ++ ov else content1
      | [] => content1
    { content := content2, start_pos := c.start_pos, end_pos := c.end_pos,
      tokens := count_tokens content2, chunk_id := c.chunk_id,
      merged := c.merged, has_overlap := true } :: addOverlapLoop s (some c) rest

/-- TextSplitter._add_overlap. -/
def add_overlap (s : TextSplitter) (chunks : List TextChunk) :
    List TextChunk :=
  if chunks.length ≤ 1 then chunks else addOverlapLoop s none chunks

/-- TextSplitter._post_process_chunks (lines 447-459). -/
def post_process_chunks (s : TextSplitter) (chunks : List TextChunk) :
    List TextChunk :=
  if chunks = [] then chunks
  else
    let processed := merge_small_chunks s chunks
    if 0 < s.overlap_tokens then add_overlap s processed else processed

/-- TextSplitter._create_single_chunk_result (lines 572-588). -/
def create_single_chunk_result (text : List Char) (tokens : Nat) :
    SplitResult :=
  { chunks := [{ content := text, start_pos := 0, end_pos := text.length,
                 tokens := tokens, chunk_id := 0 }],
    total_chunks := 1, total_tokens := tokens,
    original_length := text.length, overlap_info := none }

/-- TextSplitter._create_split_result (lines 590-606). -/
def create_split_result (s : TextSplitter) (chunks : List TextChunk)
    (original_length : Nat) : SplitResult :=
  { chunks := chunks, total_chunks := chunks.length,
    total_tokens := (chunks.map TextChunk.tokens).sum,
    original_length := original_length,
    overlap_info := some
      { enabled := 0 < s.overlap_tokens,
        target_tokens := s.overlap_tokens,
        chunks_with_overlap := (chunks.filter TextChunk.has_overlap).length } }

/-- TextSplitter.split_text_advanced (lines 185-218): empty or
whitespace-only input gives the empty result; a preprocessed text within
the budget gives the single-chunk result on the preprocessed text;
otherwise the pattern split followed by post processing. -/
def split_text_advanced (s : TextSplitter) (text : List Char) : SplitResult :=
  if text = [] ∨ pyStripChars text = [] then
    { chunks := [], total_chunks := 0, total_tokens := 0,
      original_length := 0, overlap_info := none }
  else if count_tokens (preprocess_text text) ≤ s.max_tokens then
    create_single_chunk_result (preprocess_text text)
      (count_tokens (preprocess_text text))
  else
    create_split_result s
      (post_process_chunks s (split_by_patterns s (preprocess_text text)))
      text.length

-- =========================================================================
-- Checkpoint manager (src/checkpoint_manager.py)
-- =========================================================================

/-- FileProcessingState (src/checkpoint_manager.py lines 25-35).  The
result_data dictionary is modelled over JSON values. -/
structure FileProcessingState where
  file_path : String
  file_size : Nat
  file_hash : String
  status : String
  start_time : Option String := none
  end_time : Option String := none
  error_message : Option String := none
  result_data : Option (List (String × JVal)) := none

/-- BatchProcessingCheckpoint (src/checkpoint_manager.py lines 37-51).
The counters are Nat: they start at zero and only ever increase by one. -/
structure BatchProcessingCheckpoint where
  checkpoint_id : String
  session_id : String
  create_time : String
  update_time : String
  total_files : Nat
  completed_files : Nat
  failed_files : Nat
  processing_config : List (String × JVal)
  files_state : List FileProcessingState
  current_file_index : Nat
  output_directory : String
  is_completed : Bool := false

-- Deterministic rendering of a JSON value, the stand-in for the Python
-- repr text fed to the md5 digest in _generate_checkpoint_id.  The digest
-- of the source is a fixed deterministic function of that text; no claim
-- uses anything about it beyond determinism, so the digest is modelled by
-- its input text (with round brackets where Python repr uses curly ones).
mutual
def renderJVal : JVal → String
  | JVal.null => "None"
  | JVal.bool true => "True"
  | JVal.bool false => "False"
  | JVal.num n => toString n
  | JVal.str s => s
  | JVal.arr xs => "[" ++ renderJValList xs ++ "]"
  | JVal.obj fs => "(" ++ renderJValObj fs ++ ")"

def renderJValList : List JVal → String
  | [] => ""
  | [x] => renderJVal x
  | x :: y :: xs => renderJVal x ++ ", " ++ renderJValList (y :: xs)

def renderJValObj : List (String × JVal) → String
  | [] => ""
  | [kv] => kv.1 ++ ": " ++ renderJVal kv.2
  | kv :: kv2 :: fs =>
    kv.1 ++ ": " ++ renderJVal kv.2 ++ ", " ++ renderJValObj (kv2 :: fs)
end

/-- Rendering of a file list, the sorted-files part of the digest input. -/
def renderFiles (files : List String) : String :=
  "[" ++ String.intercalate ", " files ++ "]"

/-- Rendering of a configuration dictionary, the config part of the digest
input. -/
def renderConfig (config : List (String × JVal)) : String :=
  "(" ++
    String.intercalate ", "
      (config.map (fun kv => kv.1 ++ ": " ++ renderJVal kv.2)) ++
    ")"

/-- CheckpointManager._generate_checkpoint_id (lines 333-339): the id text
is checkpoint underscore timestamp underscore digest, where the timestamp
is the whole-second wall clock int(time.time()) and the digest is a
deterministic function of the sorted file list followed by the
configuration.  The timestamp appears verbatim in the id. -/
def generate_checkpoint_id (timestamp : Nat) (files : List String)
    (config : List (String × JVal)) : String :=
  "checkpoint_" ++ toString timestamp ++ "_" ++
    (renderFiles (List.insertionSort (fun a b => a ≤ b) files) ++
      renderConfig config)

/-- CheckpointManager._generate_session_id (lines 341-344). -/
def generate_session_id (timestamp : Nat) : String :=
  "session_" ++ toString timestamp

/-- The per-file branch of create_checkpoint (lines 104-126): a stat-able
file becomes a pending item carrying its size and partial-content hash; a
file whose metadata raises becomes a failed item with the error message.
The filesystem is modelled by a function from path to size and hash or to
the raised error text. -/
def mkFileState (fs : String → Except String (Nat × String))
    (file_path : String) : FileProcessingState :=
  match fs file_path with
  | Except.ok sh =>
    { file_path := file_path, file_size := sh.1, file_hash := sh.2,
      status := "pending" }
  | Except.error e =>
    { file_path := file_path, file_size := 0, file_hash := "",
      status := "failed", error_message := some e }

/-- CheckpointManager.create_checkpoint (lines 79-147) without the final
persistence step, which is modelled separately by save_checkpoint.  The
two datetime.now() calls are modelled by one timestamp text; the
whole-second time.time() clock by the timestamp number. -/
def create_checkpoint (fs : String → Except String (Nat × String))
    (now : String) (timestamp : Nat) (files : List String)
    (processing_config : List (String × JVal)) (output_directory : String)
    (session_id : Option String) : BatchProcessingCheckpoint :=
  { checkpoint_id := generate_checkpoint_id timestamp files processing_config,
    session_id := session_id.getD (generate_session_id timestamp),
    create_time := now, update_time := now,
    total_files := files.length, completed_files := 0, failed_files := 0,
    processing_config := processing_config,
    files_state := files.map (mkFileState fs),
    current_file_index := 0, output_directory := output_directory,
    is_completed := false }

/-- The per-item mutation of update_file_status (lines 268-287): the status
field is overwritten unconditionally; a processing update stamps the start
time; a completed or failed update stamps the end time and stores the
result or the error message. -/
def updateItem (now status : String)
    (result_data : Option (List (String × JVal)))
    (error_message : Option String) (st : FileProcessingState) :
    FileProcessingState :=
  if status == "processing" then
    { st with status := status, start_time := some now }
  else if status == "completed" then
    { st with
      status := status, end_time := some now, result_data := result_data }
  else if status == "failed" then
    { st with
      status := status, end_time := some now,
      error_message := error_message }
  else { st with status := status }

/-- The item search loop of update_file_status: apply the mutation to the
first item whose path matches and report its previous status; the break
statement stops at the first match. -/
def updateFirst (path : String) (f : FileProcessingState → FileProcessingState) :
    List FileProcessingState → Option String × List FileProcessingState
  | [] => (none, [])
  | st :: rest =>
    if st.file_path == path then (some st.status, f st :: rest)
    else
      let r := updateFirst path f rest
      (r.1, st :: r.2)

/-- True when the search matched and the previous status differs from the
given one: the guard of the counter increments. -/
def matchedWithOther (old : Option String) (status : String) : Bool :=
  match old with
  | some t => t != status
  | none => false

/-- CheckpointManager.update_file_status on a loaded session (lines
250-297): mutate the first matching item, increment the completed or
failed counter when the matched item previously held a different status,
set is_completed once the counters reach the total, and stamp the update
time through save_checkpoint. -/
def update_file_status (cp : BatchProcessingCheckpoint)
    (now file_path status : String)
    (result_data : Option (List (String × JVal)))
    (error_message : Option String) : BatchProcessingCheckpoint :=
  let r := updateFirst file_path (updateItem now status result_data error_message)
    cp.files_state
  let completed := cp.completed_files +
    (if status == "completed" && matchedWithOther r.1 "completed" then 1 else 0)
  let failed := cp.failed_files +
    (if status == "failed" && matchedWithOther r.1 "failed" then 1 else 0)
  { cp with
    files_state := r.2, completed_files := completed, failed_files := failed,
    is_completed :=
      if cp.total_files ≤ completed + failed then true else cp.is_completed,
    update_time := now }

/-- CheckpointManager.update_file_status including the no-session early
return (line 264): with no loaded session the call does nothing. -/
def update_file_status_m (mgr : Option BatchProcessingCheckpoint)
    (now file_path status : String)
    (result_data : Option (List (String × JVal)))
    (error_message : Option String) : Option BatchProcessingCheckpoint :=
  match mgr with
  | none => none
  | some cp =>
    some (update_file_status cp now file_path status result_data error_message)

/-- One update_file_status call: its wall-clock text and the four
arguments of the call. -/
structure UpdateCall where
  now : String
  file_path : String
  status : String
  result_data : Option (List (String × JVal)) := none
  error_message : Option String := none

/-- Apply one call to a session. -/
def applyCall (cp : BatchProcessingCheckpoint) (u : UpdateCall) :
    BatchProcessingCheckpoint :=
  update_file_status cp u.now u.file_path u.status u.result_data
    u.error_message

/-- Run a sequence of update_file_status calls. -/
def runUpdates (cp : BatchProcessingCheckpoint) (us : List UpdateCall) :
    BatchProcessingCheckpoint :=
  us.foldl applyCall cp

/-- A terminal work-item status. -/
def terminalStatus (s : String) : Bool := s == "completed" || s == "failed"

/-- A call is conservative for a session when it does not ask a matched
item already in a terminal status to change status: the discipline under
which the spec invariants hold. -/
def callOk (cp : BatchProcessingCheckpoint) (u : UpdateCall) : Bool :=
  match cp.files_state.find? (fun st => st.file_path == u.file_path) with
  | some st => !terminalStatus st.status || (u.status == st.status)
  | none => true

/-- A whole call sequence is conservative when every call is conservative
for the session state it runs against. -/
def okSeq : BatchProcessingCheckpoint → List UpdateCall → Bool
  | _, [] => true
  | cp, u :: us => callOk cp u && okSeq (applyCall cp u) us

/-- Number of items holding a given status. -/
def countStatus (s : String) (l : List FileProcessingState) : Nat :=
  (l.filter (fun st => st.status == s)).length

-- =========================================================================
-- Checkpoint persistence (save and load, src/checkpoint_manager.py)
-- =========================================================================

/-- JSON encoding of an optional text field. -/
def encOptStr : Option String → JVal
  | none => JVal.null
  | some s => JVal.str s

/-- JSON encoding of an optional dictionary field. -/
def encOptObj : Option (List (String × JVal)) → JVal
  | none => JVal.null
  | some d => JVal.obj d

/-- dataclasses.asdict on a FileProcessingState followed by json.dump: an
object with the eight fields in declaration order. -/
def encodeFileState (st : FileProcessingState) : JVal :=
  JVal.obj [("file_path", JVal.str st.file_path),
            ("file_size", JVal.num st.file_size),
            ("file_hash", JVal.str st.file_hash),
            ("status", JVal.str st.status),
            ("start_time", encOptStr st.start_time),
            ("end_time", encOptStr st.end_time),
            ("error_message", encOptStr st.error_message),
            ("result_data", encOptObj st.result_data)]

/-- dataclasses.asdict on a BatchProcessingCheckpoint followed by
json.dump: the twelve fields in declaration order, with the per-file
states as an array of objects. -/
def encodeCheckpoint (cp : BatchProcessingCheckpoint) : JVal :=
  JVal.obj [("checkpoint_id", JVal.str cp.checkpoint_id),
            ("session_id", JVal.str cp.session_id),
            ("create_time", JVal.str cp.create_time),
            ("update_time", JVal.str cp.update_time),
            ("total_files", JVal.num cp.total_files),
            ("completed_files", JVal.num cp.completed_files),
            ("failed_files", JVal.num cp.failed_files),
            ("processing_config", JVal.obj cp.processing_config),
            ("files_state", JVal.arr (cp.files_state.map encodeFileState)),
            ("current_file_index", JVal.num cp.current_file_index),
            ("output_directory", JVal.str cp.output_directory),
            ("is_completed", JVal.bool cp.is_completed)]

/-- Key lookup in a JSON object. -/
def jLookup (k : String) : JVal → Option JVal
  | JVal.obj fs => List.lookup k fs
  | _ => none

/-- Expect a JSON string. -/
def decStr : Option JVal → Option String
  | some (JVal.str s) => some s
  | _ => none

/-- Expect a JSON number; the Python constructor stores whatever integer
arrives, and every encoded counter is a Nat. -/
def decNat : Option JVal → Option Nat
  | some (JVal.num n) => some n.toNat
  | _ => none

/-- Expect a JSON boolean. -/
def decBool : Option JVal → Option Bool
  | some (JVal.bool b) => some b
  | _ => none

/-- Expect a JSON string or null, the encodings of an optional text. -/
def decOptStr : Option JVal → Option (Option String)
  | some JVal.null => some none
  | some (JVal.str s) => some (some s)
  | _ => none

/-- Expect a JSON object or null, the encodings of an optional
dictionary. -/
def decOptObj : Option JVal → Option (Option (List (String × JVal)))
  | some JVal.null => some none
  | some (JVal.obj d) => some (some d)
  | _ => none

/-- Expect a JSON object, the encoding of the configuration snapshot. -/
def decConfig : Option JVal → Option (List (String × JVal))
  | some (JVal.obj d) => some d
  | _ => none

/-- FileProcessingState(**file_data) in load_checkpoint (line 232):
rebuild one state from its JSON object; any shape mismatch lands in the
exception path of load_checkpoint. -/
def decodeFileState (j : JVal) : Option FileProcessingState := do
  let file_path ← decStr (jLookup "file_path" j)
  let file_size ← decNat (jLookup "file_size" j)
  let file_hash ← decStr (jLookup "file_hash" j)
  let status ← decStr (jLookup "status" j)
  let start_time ← decOptStr (jLookup "start_time" j)
  let end_time ← decOptStr (jLookup "end_time" j)
  let error_message ← decOptStr (jLookup "error_message" j)
  let result_data ← decOptObj (jLookup "result_data" j)
  pure { file_path := file_path, file_size := file_size,
         file_hash := file_hash, status := status,
         start_time := start_time, end_time := end_time,
         error_message := error_message, result_data := result_data }

/-- The files_state array rebuild loop of load_checkpoint (lines 230-233):
decode states one by one, failing on the first mismatch. -/
def decodeStateList : List JVal → Option (List FileProcessingState)
  | [] => some []
  | j :: rest => do
    let st ← decodeFileState j
    let l ← decodeStateList rest
    pure (st :: l)

/-- The files_state field rebuild of load_checkpoint. -/
def decodeFilesState : Option JVal → Option (List FileProcessingState)
  | some (JVal.arr xs) => decodeStateList xs
  | _ => none

/-- BatchProcessingCheckpoint(**checkpoint_data) in load_checkpoint
(line 237). -/
def decodeCheckpoint (j : JVal) : Option BatchProcessingCheckpoint := do
  let checkpoint_id ← decStr (jLookup "checkpoint_id" j)
  let session_id ← decStr (jLookup "session_id" j)
  let create_time ← decStr (jLookup "create_time" j)
  let update_time ← decStr (jLookup "update_time" j)
  let total_files ← decNat (jLookup "total_files" j)
  let completed_files ← decNat (jLookup "completed_files" j)
  let failed_files ← decNat (jLookup "failed_files" j)
  let processing_config ← decConfig (jLookup "processing_config" j)
  let files_state ← decodeFilesState (jLookup "files_state" j)
  let current_file_index ← decNat (jLookup "current_file_index" j)
  let output_directory ← decStr (jLookup "output_directory" j)
  let is_completed ← decBool (jLookup "is_completed" j)
  pure { checkpoint_id := checkpoint_id, session_id := session_id,
         create_time := create_time, update_time := update_time,
         total_files := total_files, completed_files := completed_files,
         failed_files := failed_files, processing_config := processing_config,
         files_state := files_state, current_file_index := current_file_index,
         output_directory := output_directory, is_completed := is_completed }

/-- The checkpoint directory, modelled as a record store keyed by
checkpoint id: one JSON record per session file. -/
abbrev CheckpointDir := List (String × JVal)

/-- CheckpointManager._save_checkpoint (lines 155-173): serialize the
session and write the record named by its id; a fresh write shadows any
earlier record of the same id. -/
def save_checkpoint (dir : CheckpointDir) (cp : BatchProcessingCheckpoint) :
    CheckpointDir :=
  (cp.checkpoint_id, encodeCheckpoint cp) :: dir

/-- CheckpointManager.load_checkpoint (lines 209-244): read the record
named by the id and rebuild the session; a missing record or any parse
mismatch gives none, the False return of the source. -/
def load_checkpoint (dir : CheckpointDir) (checkpoint_id : String) :
    Option BatchProcessingCheckpoint :=
  (List.lookup checkpoint_id dir).bind decodeCheckpoint

-- =========================================================================
-- Term deduplication (GPTProcessor, src/gpt_processor.py)
-- =========================================================================

/-- Python str.strip on a Lean String. -/
def pyStrip (s : String) : String := String.mk (pyStripChars s.data)

/-- Python str.lower, modelled character-wise; the terms in scope are
ASCII English text, where Char.toLower agrees with Python. -/
def pyLower (s : String) : String := String.mk (s.data.map Char.toLower)

/-- One entry of the terms list of a unit result: a dict possibly holding
eng_term, zh_term and term keys.  Entries that are not dicts are skipped
by the source before any processing and are not modelled. -/
structure TermEntry where
  eng_term : Option String := none
  zh_term : Option String := none
  term : Option String := none

/-- One per-unit result as consumed by _collect_all_terms: its custom id,
its source file and its extracted term entries (an absent or non-list
terms field is the empty list). -/
structure UnitResult where
  custom_id : String := ""
  source_file : String := ""
  terms : List TermEntry := []

/-- One collected record as built by _collect_all_terms: the old format
stores the raw term text, the bilingual format the stripped English and
Chinese texts; both carry provenance.  The isBilingual flag models which
key set the record dictionary holds. -/
structure CollectedTerm where
  isBilingual : Bool
  original_term : String := ""
  original_eng_term : String := ""
  original_zh_term : String := ""
  source_id : String := ""
  source_file : String := ""
deriving DecidableEq, Repr

/-- The bilingual branch of _collect_all_terms (lines 425-437): the key is
the lowercased (unless case sensitive) stripped English text, a bar, and
the stripped Chinese text. -/
def bilingualKeyRec (case_sensitive : Bool) (r : UnitResult)
    (eng zh : String) : String × CollectedTerm :=
  ((if case_sensitive then eng else pyLower eng) ++ "|" ++ zh,
   { isBilingual := true, original_eng_term := eng, original_zh_term := zh,
     source_id := r.custom_id, source_file := r.source_file })

/-- The key and record for one term entry (lines 408-437): empty stripped
bilingual fields with a term key present select the old format, whose key
is the stripped term text, lowercased unless matching is case sensitive
and whose stored text is the raw unstripped value; every other entry takes
the bilingual branch. -/
def termKeyRec (case_sensitive : Bool) (r : UnitResult) (t : TermEntry) :
    String × CollectedTerm :=
  let eng := pyStrip (t.eng_term.getD "")
  let zh := pyStrip (t.zh_term.getD "")
  match t.term with
  | some raw =>
    if eng = "" ∧ zh = "" then
      let single := pyStrip raw
      (if case_sensitive then single else pyLower single,
       { isBilingual := false, original_term := raw,
         source_id := r.custom_id, source_file := r.source_file })
    else bilingualKeyRec case_sensitive r eng zh
  | none => bilingualKeyRec case_sensitive r eng zh

/-- Append a record to the bucket of its key, creating the bucket at the
end for a new key: the Python dict insertion semantics of
_collect_all_terms. -/
def addTerm (m : List (String × List CollectedTerm)) (k : String)
    (v : CollectedTerm) : List (String × List CollectedTerm) :=
  if m.any (fun p => p.1 == k) then
    m.map (fun p => if p.1 == k then (p.1, p.2 ++ [v]) else p)
  else m ++ [(k, [v])]

/-- GPTProcessor._collect_all_terms (lines 394-439). -/
def collect_all_terms (case_sensitive : Bool) (results : List UnitResult) :
    List (String × List CollectedTerm) :=
  results.foldl
    (fun m r =>
      r.terms.foldl
        (fun m2 t =>
          let kv := termKeyRec case_sensitive r t
          addTerm m2 kv.1 kv.2)
        m)
    []

/-- The value stored under the source_files key of a merged term: a list
when more than one file contributed, the single file name when exactly
one, the empty text otherwise. -/
inductive SourceFilesVal where
  | strVal : String → SourceFilesVal
  | listVal : List String → SourceFilesVal
deriving DecidableEq, Repr

/-- A merged term dictionary as built by _merge_term_info: optional fields
model key presence in the four dict shapes the source produces. -/
structure MergedTerm where
  term : Option String := none
  eng_term : Option String := none
  zh_term : Option String := none
  source_file : Option String := none
  source_files : Option SourceFilesVal := none
deriving DecidableEq, Repr

/-- GPTProcessor._collect_source_files: the nonempty source files with
duplicates removed.  The source materialises a Python set, whose
iteration order is unspecified; first-occurrence order is the
deterministic representative, and no claim depends on the order. -/
def dedupFirstAux : List String → List String → List String
  | [], _ => []
  | s :: rest, seen =>
    if seen.contains s then dedupFirstAux rest seen
    else s :: dedupFirstAux rest (s :: seen)

/-- First-occurrence deduplication. -/
def dedupFirst (l : List String) : List String := dedupFirstAux l []

/-- GPTProcessor._collect_source_files (lines 539-545 of the merged
section). -/
def collect_source_files (l : List CollectedTerm) : List String :=
  dedupFirst ((l.map (fun t => t.source_file)).filter (fun s => s ≠ ""))

/-- True when the text starts with an uppercase letter, the Python test
value and value[0].isupper() on the ASCII terms in scope. -/
def firstCharUpper (s : String) : Bool :=
  match s.data with
  | [] => false
  | c :: _ => c.isUpper

/-- The bracket access term_info["original_term"] of _select_best_term:
the key is present exactly on old-format records; on a bilingual record
the access raises KeyError, modelled as none. -/
def getOriginalTerm (t : CollectedTerm) : Option String :=
  if t.isBilingual then none else some t.original_term

/-- The bracket access term_list[0]["original_eng_term"] initialising
_select_best_bilingual_term at its single call site: present exactly on
bilingual records, KeyError (none) otherwise. -/
def getOriginalEngTerm (t : CollectedTerm) : Option String :=
  if t.isBilingual then some t.original_eng_term else none

/-- The defaulted access term_info.get("original_eng_term", "") of the
_select_best_bilingual_term loop: never raises. -/
def getOriginalEngTermD (t : CollectedTerm) : String :=
  if t.isBilingual then t.original_eng_term else ""

/-- The loop of _select_best_term: walk the whole bucket, breaking at the
first record whose raw term is nonempty and starts uppercase; each
iteration performs the raising bracket access, so the loop fails on the
first bilingual record it reaches before breaking. -/
def selectBestTermLoop (best : String) : List CollectedTerm → Option String
  | [] => some best
  | t :: rest => do
    let v ← getOriginalTerm t
    if v ≠ "" ∧ firstCharUpper v then some v
    else selectBestTermLoop best rest

/-- GPTProcessor._select_best_term: the initial best is the bracket
access on the first record; the loop then scans the whole bucket.  On
the empty bucket term_list[0] raises IndexError, also none (the buckets
built by _collect_all_terms are never empty). -/
def select_best_term (l : List CollectedTerm) : Option String :=
  match l with
  | [] => none
  | t0 :: _ => do
    let best ← getOriginalTerm t0
    selectBestTermLoop best l

/-- GPTProcessor._select_best_bilingual_term at its single call site
(field_name is original_eng_term): the initial best is the raising
bracket access on the first record, while the loop uses the defaulted
get and so never raises; the break picks the first record whose value is
nonempty and starts uppercase. -/
def select_best_bilingual_term (l : List CollectedTerm) : Option String :=
  match l with
  | [] => none
  | t0 :: _ => do
    let best ← getOriginalEngTerm t0
    match l.find? (fun ti =>
        getOriginalEngTermD ti ≠ "" && firstCharUpper (getOriginalEngTermD ti)) with
    | some ti => some (getOriginalEngTermD ti)
    | none => some best

/-- The conditional value of the source_files key. -/
def sourceFilesField : List String → SourceFilesVal
  | [] => SourceFilesVal.strVal ""
  | [x] => SourceFilesVal.strVal x
  | xs => SourceFilesVal.listVal xs

/-- GPTProcessor._merge_term_info (lines 472-518): a singleton bucket
keeps its texts and single source file; a plural bucket selects the best
display form and unions the contributing files.  All bracket accesses on
term_list[0] sit inside the branch matching its format, so the only
failure path is _select_best_term on a plural old-format-first bucket
that also holds a bilingual record (and the unreachable empty bucket). -/
def merge_term_info (l : List CollectedTerm) : Option MergedTerm :=
  let sf := collect_source_files l
  match l with
  | [] => none
  | t0 :: rest =>
    if t0.isBilingual then
      match rest with
      | [] =>
        some { eng_term := some t0.original_eng_term,
               zh_term := some t0.original_zh_term,
               source_file := some t0.source_file }
      | _ :: _ => do
        let best ← select_best_bilingual_term l
        some { eng_term := some best,
               zh_term := some t0.original_zh_term,
               source_files := some (sourceFilesField sf) }
    else
      match rest with
      | [] =>
        some { term := some t0.original_term,
               source_file := some t0.source_file }
      | _ :: _ => do
        let best ← select_best_term l
        some { term := some best,
               source_files := some (sourceFilesField sf) }

/-- The merge loop of _merge_duplicate_terms: one merged term per bucket
in order; a KeyError raised for some bucket propagates, so the whole
merge yields none. -/
def mergeTermsList : List (String × List CollectedTerm) → Option (List MergedTerm)
  | [] => some []
  | p :: rest => do
    let m ← merge_term_info p.2
    let ms ← mergeTermsList rest
    some (m :: ms)

/-- GPTProcessor._merge_duplicate_terms (lines 441-454): one merged term
per bucket, and the duplicate count accumulates bucket size minus one
over the plural buckets; an exception escaping _merge_term_info aborts
the whole call. -/
def merge_duplicate_terms (all_terms : List (String × List CollectedTerm)) :
    Option (List MergedTerm × Nat) := do
  let ms ← mergeTermsList all_terms
  some (ms, all_terms.foldl
    (fun acc p => acc + (if 1 < p.2.length then p.2.length - 1 else 0)) 0)

/-- The total record count over all buckets: the original_terms value of
_create_merged_result. -/
def totalCollected (all_terms : List (String × List CollectedTerm)) : Nat :=
  (all_terms.map (fun p => p.2.length)).sum

/-- The merged-result payload of _create_merged_result (lines 456-470)
restricted to the aggregation fields the claims concern. -/
structure MergedResult where
  terms : List MergedTerm
  total_terms : Nat
  original_terms : Nat
  duplicates_removed : Nat
deriving DecidableEq, Repr

/-- GPTProcessor.deduplicate_terms (lines 368-392) composed with
_create_merged_result: collect, merge, report; a KeyError raised inside
the merge propagates out of deduplicate_terms, so no merged result
exists for such inputs (none). -/
def deduplicate_terms (case_sensitive : Bool) (results : List UnitResult) :
    Option MergedResult := do
  let md ← merge_duplicate_terms (collect_all_terms case_sensitive results)
  some { terms := md.1, total_terms := md.1.length,
         original_terms := totalCollected (collect_all_terms case_sensitive results),
         duplicates_removed := md.2 }

/-- The inductive invariant of a checkpoint session: each counter is
bounded by the number of items currently holding the matching status, the
item list length equals the recorded total, and a set completion flag
certifies that the counters reached the total. -/
def cpInv (cp : BatchProcessingCheckpoint) : Prop :=
  cp.completed_files ≤ countStatus "completed" cp.files_state ∧
  cp.failed_files ≤ countStatus "failed" cp.files_state ∧
  cp.files_state.length = cp.total_files ∧
  (cp.is_completed = true →
    cp.total_files ≤ cp.completed_files + cp.failed_files)

/-- The invariant of the aggregation map of _collect_all_terms: keys are
pairwise distinct and every bucket is nonempty. -/
def aggInv (m : List (String × List CollectedTerm)) : Prop :=
  (m.map Prod.fst).Nodup ∧ ∀ p ∈ m, p.2 ≠ []

-- =========================================================================
-- Theorems
-- =========================================================================

/-- Helper: the pattern loop of _find_chunk_end only ever returns a cut
whose segment passed the token check. -/
theorem findValidatedCut_le (s : TextSplitter) (text : List Char)
    (start_pos max_end : Nat) :
    ∀ (pats : List (List RItem)) (c : Nat),
      findValidatedCut s text start_pos max_end pats = some c →
      count_tokens ((text.drop start_pos).take (c - start_pos)) ≤
        s.max_tokens := by
  intro pats
  induction pats with
  | nil => intro c h; simp [findValidatedCut] at h
  | cons pat ps ih =>
    intro c h
    unfold findValidatedCut at h
    split at h
    · exact ih c h
    · split at h
      · injection h with h2
        rw [← h2, Nat.add_sub_cancel_left]
        assumption
      · exact ih c h

/-- C4: the end position chosen by _find_chunk_end is the end of the text
(the early return taken whenever the remaining text fits the character
window), or the hard character cap at start plus four times max_tokens, or
a pattern boundary whose segment measures within max_tokens.  Only in the
third case is the token budget guaranteed; the first case can exceed the
budget without being the hard cap cut, which corrects the claim. -/
theorem find_chunk_end_token_budget (s : TextSplitter) (text : List Char)
    (start_pos : Nat) :
    find_chunk_end s text start_pos = text.length ∨
    find_chunk_end s text start_pos = start_pos + 4 * s.max_tokens ∨
    count_tokens ((text.drop start_pos).take
      (find_chunk_end s text start_pos - start_pos)) ≤ s.max_tokens := by
  unfold find_chunk_end
  by_cases h : text.length ≤ min (start_pos + 4 * s.max_tokens) text.length
  · rw [if_pos h]; left; rfl
  · rw [if_neg h]
    have hmin : min (start_pos + 4 * s.max_tokens) text.length =
        start_pos + 4 * s.max_tokens := by omega
    cases hfv : findValidatedCut s text start_pos
        (min (start_pos + 4 * s.max_tokens) text.length) split_patterns with
    | some c =>
      right; right
      exact findValidatedCut_le s text start_pos _ split_patterns c hfv
    | none =>
      right; left
      exact hmin

/-- C4 counterexample: with max_tokens 2 the seven-ideograph input needs
splitting (it measures 3 tokens) yet comes back as one chunk of 3 tokens,
ending at position 7, which is not the hard character cap 0 + 4 * 2 = 8:
an over-budget chunk that the hard-cut exception does not cover. -/
theorem chunk_token_budget_cex :
    (TextSplitter.init 2 0).max_tokens = 2 ∧
    (split_text_advanced (TextSplitter.init 2 0) "中中中中中中中".data).chunks.map
      TextChunk.tokens = [3] ∧
    (split_text_advanced (TextSplitter.init 2 0) "中中中中中中中".data).chunks.map
      TextChunk.start_pos = [0] ∧
    (split_text_advanced (TextSplitter.init 2 0) "中中中中中中中".data).chunks.map
      TextChunk.end_pos = [7] ∧
    (7 : Nat) ≠ 0 + 4 * 2 := by decide

/-- C5 (amended): for input with non-whitespace content whose preprocessed
form measures within max_tokens, split_text_advanced returns exactly the
single-chunk result on the preprocessed text — which differs from the
input whenever preprocessing changes it. -/
theorem split_text_single_chunk (s : TextSplitter) (text : List Char)
    (h1 : pyStripChars text ≠ [])
    (h2 : count_tokens (preprocess_text text) ≤ s.max_tokens) :
    split_text_advanced s text =
      create_single_chunk_result (preprocess_text text)
        (count_tokens (preprocess_text text)) := by
  have ht : text ≠ [] := by
    intro h
    rw [h] at h1
    exact h1 rfl
  unfold split_text_advanced
  rw [if_neg (not_or.mpr ⟨ht, h1⟩), if_pos h2]

/-- Witness for split_text_single_chunk at a concrete input. -/
theorem split_text_single_chunk_witness :
    split_text_advanced (TextSplitter.init 3000 200) "hello".data =
      create_single_chunk_result (preprocess_text "hello".data)
        (count_tokens (preprocess_text "hello".data)) :=
  split_text_single_chunk _ _ (by decide) (by decide)

/-- C5 counterexample: the input holding a carriage return measures within
the budget and is nonempty, yet the single returned chunk carries the
preprocessed text, not the input text. -/
theorem split_text_single_chunk_cex :
    count_tokens "a\r\nb".data ≤ (TextSplitter.init 3000 200).max_tokens ∧
    "a\r\nb".data ≠ [] ∧
    (split_text_advanced (TextSplitter.init 3000 200) "a\r\nb".data).chunks.map
      TextChunk.content = ["a\nb".data] ∧
    "a\nb".data ≠ "a\r\nb".data := by decide

/-- C6 (amended): TextSplitter construction accepts every configuration,
storing max_tokens and overlap_tokens unchanged; no validation runs.  The
effective overlap is instead clamped at use site, inside
_extract_overlap_text, to the minimum of overlap_tokens and a quarter of
max_tokens. -/
theorem init_accepts_any_config (mt ot : Nat) :
    (TextSplitter.init mt ot).max_tokens = mt ∧
    (TextSplitter.init mt ot).overlap_tokens = ot ∧
    target_overlap_tokens (TextSplitter.init mt ot) = min ot (mt / 4) :=
  ⟨rfl, rfl, rfl⟩

/-- C6 counterexample: constructing with overlap_tokens equal to
max_tokens succeeds and stores the configuration unchanged — nothing is
rejected and nothing clamped at construction time. -/
theorem init_overlap_ge_max_cex :
    TextSplitter.init 100 100 =
      { max_tokens := 100, overlap_tokens := 100 } ∧
    (TextSplitter.init 100 100).overlap_tokens =
      (TextSplitter.init 100 100).max_tokens := by decide

/-- C9 (amended): the heuristic token count is a non-negative integer, is
deterministic (a pure function: equal inputs give equal outputs), and is
monotone under extension: appending text never lowers the count.  It is
not monotone in bare text length, which corrects the claim. -/
theorem count_tokens_contract (t u : List Char) :
    0 ≤ count_tokens t ∧ count_tokens t = count_tokens t ∧
    count_tokens t ≤ count_tokens (t ++ u) :=
  ⟨Nat.zero_le _, rfl, count_tokens_append_le t u⟩

/-- C9 counterexample: two CJK ideographs are shorter than three ASCII
letters yet measure strictly more tokens, refuting monotonicity in text
length. -/
theorem count_tokens_length_monotone_cex :
    ("中中".data).length ≤ ("abc".data).length ∧
    count_tokens "abc".data < count_tokens "中中".data := by decide

/-- Helper: sorting with insertionSort sends permuted lists to the same
sorted list. -/
theorem insertionSort_eq_of_perm (l1 l2 : List String)
    (hperm : l1.Perm l2) :
    List.insertionSort (fun a b => a ≤ b) l1 =
      List.insertionSort (fun a b => a ≤ b) l2 :=
  List.eq_of_perm_of_sorted
    ((List.perm_insertionSort _ l1).trans
      (hperm.trans (List.perm_insertionSort _ l2).symm))
    (List.sorted_insertionSort _ l1)
    (List.sorted_insertionSort _ l2)

/-- C1 (amended): the checkpoint id of create_checkpoint is a pure
function of the whole-second timestamp, the sorted file list and the
configuration: two calls in the same second with the same configuration
and the same files up to order give the same id, whatever the clock text,
filesystem, output directory or session id.  Across different seconds the
ids differ, because the timestamp is embedded verbatim, which corrects
the claim. -/
theorem checkpoint_id_pure_same_timestamp
    (fs1 fs2 : String → Except String (Nat × String)) (now1 now2 : String)
    (ts : Nat) (files1 files2 : List String)
    (config : List (String × JVal)) (out1 out2 : String)
    (sid1 sid2 : Option String) (hperm : files1.Perm files2) :
    (create_checkpoint fs1 now1 ts files1 config out1 sid1).checkpoint_id =
      (create_checkpoint fs2 now2 ts files2 config out2 sid2).checkpoint_id := by
  show generate_checkpoint_id ts files1 config =
    generate_checkpoint_id ts files2 config
  unfold generate_checkpoint_id
  rw [insertionSort_eq_of_perm files1 files2 hperm]

/-- Witness for checkpoint_id_pure_same_timestamp at concrete inputs. -/
theorem checkpoint_id_pure_same_timestamp_witness :
    (create_checkpoint (fun _ => Except.error "stat failed") "t1" 7
        ["b.txt", "a.txt"] [] "out" none).checkpoint_id =
      (create_checkpoint (fun _ => Except.ok (1, "h")) "t2" 7
        ["a.txt", "b.txt"] [] "elsewhere" (some "s")).checkpoint_id :=
  checkpoint_id_pure_same_timestamp _ _ _ _ _ _ _ _ _ _ _ _ (by decide)

/-- C1 counterexample: the spec scenario with sources a.txt and b.txt and
the max_units 500 configuration, created at two different whole-second
clock readings, yields two different checkpoint ids: the id is not a pure
function of the sorted sources and the configuration. -/
theorem checkpoint_id_timestamp_cex :
    (create_checkpoint (fun _ => Except.ok (1, "h")) "t" 1
        ["a.txt", "b.txt"] [("max_units", JVal.num 500)] "out"
        none).checkpoint_id ≠
      (create_checkpoint (fun _ => Except.ok (1, "h")) "t" 2
        ["a.txt", "b.txt"] [("max_units", JVal.num 500)] "out"
        none).checkpoint_id := by decide

/-- Helper: the per-item mutation always writes exactly the requested
status. -/
theorem updateItem_status (now status : String)
    (rd : Option (List (String × JVal))) (em : Option String)
    (st : FileProcessingState) :
    (updateItem now status rd em st).status = status := by
  unfold updateItem
  repeat' split
  all_goals rfl

/-- Helper: the reported previous status is the status of the first
matching item. -/
theorem updateFirst_fst (path : String)
    (f : FileProcessingState → FileProcessingState) :
    ∀ l : List FileProcessingState,
      (updateFirst path f l).1 =
        (l.find? (fun st => st.file_path == path)).map
          FileProcessingState.status := by
  intro l
  induction l with
  | nil => rfl
  | cons st rest ih =>
    cases hp : st.file_path == path with
    | true => simp [updateFirst, List.find?, hp]
    | false => simp [updateFirst, List.find?, hp, ih]

/-- Helper: with no matching item the list is returned unchanged. -/
theorem updateFirst_snd_of_none (path : String)
    (f : FileProcessingState → FileProcessingState) :
    ∀ l : List FileProcessingState,
      l.find? (fun st => st.file_path == path) = none →
      (updateFirst path f l).2 = l := by
  intro l
  induction l with
  | nil => intro _; rfl
  | cons st rest ih =>
    intro h
    cases hp : st.file_path == path with
    | true => simp [List.find?, hp] at h
    | false =>
      simp only [List.find?, hp] at h
      simp [updateFirst, hp, ih h]

/-- Helper: the item-search loop preserves the list length. -/
theorem updateFirst_length (path : String)
    (f : FileProcessingState → FileProcessingState) :
    ∀ l : List FileProcessingState,
      (updateFirst path f l).2.length = l.length := by
  intro l
  induction l with
  | nil => rfl
  | cons st rest ih =>
    cases hp : st.file_path == path with
    | true => simp [updateFirst, hp]
    | false => simp [updateFirst, hp, ih]

/-- Helper: mutating the first matching item changes any status count by
exactly the difference the mutated item contributes. -/
theorem updateFirst_filter_count (path : String)
    (f : FileProcessingState → FileProcessingState)
    (q : FileProcessingState → Bool) :
    ∀ (l : List FileProcessingState) (st0 : FileProcessingState),
      l.find? (fun st => st.file_path == path) = some st0 →
      ((updateFirst path f l).2.filter q).length + (if q st0 then 1 else 0) =
        (l.filter q).length + (if q (f st0) then 1 else 0) := by
  intro l
  induction l with
  | nil => intro st0 h; simp at h
  | cons st rest ih =>
    intro st0 h
    cases hp : st.file_path == path with
    | true =>
      simp only [List.find?, hp] at h
      injection h with h
      subst h
      by_cases hq1 : q st = true <;> by_cases hq2 : q (f st) = true <;>
        simp [updateFirst, hp, List.filter_cons, hq1, hq2]
    | false =>
      simp only [List.find?, hp] at h
      have hih := ih st0 h
      by_cases hq : q st = true <;>
        simp [updateFirst, hp, List.filter_cons, hq] <;> omega

/-- Helper: every position is either untouched or is the first match and
now holds the mutated item. -/
theorem updateFirst_get (path : String)
    (f : FileProcessingState → FileProcessingState) :
    ∀ (l : List FileProcessingState) (i : Nat) (st0 : FileProcessingState),
      l[i]? = some st0 →
      ((updateFirst path f l).2)[i]? = some st0 ∨
      (l.find? (fun st => st.file_path == path) = some st0 ∧
        ((updateFirst path f l).2)[i]? = some (f st0)) := by
  intro l
  induction l with
  | nil => intro i st0 h; simp at h
  | cons st rest ih =>
    intro i st0 h
    cases hp : st.file_path == path with
    | true =>
      match i with
      | 0 =>
        simp only [List.getElem?_cons_zero, Option.some.injEq] at h
        subst h
        right
        exact ⟨by simp [List.find?, hp], by simp [updateFirst, hp]⟩
      | i + 1 =>
        left
        simp only [List.getElem?_cons_succ] at h
        simp [updateFirst, hp, h]
    | false =>
      match i with
      | 0 =>
        simp only [List.getElem?_cons_zero, Option.some.injEq] at h
        subst h
        left
        simp [updateFirst, hp]
      | i + 1 =>
        simp only [List.getElem?_cons_succ] at h
        rcases ih i st0 h with hl | ⟨hf, hr⟩
        · left
          simp [updateFirst, hp, hl]
        · right
          refine ⟨by simp [List.find?, hp, hf], ?_⟩
          simp [updateFirst, hp, hr]

theorem applyCall_fields (cp : BatchProcessingCheckpoint) (u : UpdateCall) :
    (applyCall cp u).files_state =
      (updateFirst u.file_path
        (updateItem u.now u.status u.result_data u.error_message)
        cp.files_state).2 ∧
    (applyCall cp u).completed_files = cp.completed_files +
      (if u.status == "completed" && matchedWithOther
          (updateFirst u.file_path
            (updateItem u.now u.status u.result_data u.error_message)
            cp.files_state).1 "completed" then 1 else 0) ∧
    (applyCall cp u).failed_files = cp.failed_files +
      (if u.status == "failed" && matchedWithOther
          (updateFirst u.file_path
            (updateItem u.now u.status u.result_data u.error_message)
            cp.files_state).1 "failed" then 1 else 0) ∧
    (applyCall cp u).total_files = cp.total_files ∧
    (applyCall cp u).is_completed =
      (if cp.total_files ≤
          (applyCall cp u).completed_files + (applyCall cp u).failed_files
        then true else cp.is_completed) :=
  ⟨rfl, rfl, rfl, rfl, rfl⟩




/-- Helper: under the conservative-call discipline, a counter bounded by
its status count before an update stays bounded, increment included. -/
theorem counter_bound_aux (path now status tgt : String)
    (rd : Option (List (String × JVal))) (em : Option String)
    (l : List FileProcessingState) (st0 : FileProcessingState)
    (hfind : l.find? (fun st => st.file_path == path) = some st0)
    (hterm2 : st0.status = tgt → status = tgt)
    (base : Nat) (hbase : base ≤ countStatus tgt l) :
    base + (if status == tgt && (st0.status != tgt) then 1 else 0) ≤
      countStatus tgt (updateFirst path (updateItem now status rd em) l).2 := by
  have hcount := updateFirst_filter_count path (updateItem now status rd em)
    (fun st => st.status == tgt) l st0 hfind
  simp only [updateItem_status] at hcount
  simp only [countStatus] at hbase ⊢
  by_cases hB : st0.status = tgt <;> by_cases hC : status = tgt
  · simp [hB, hC] at hcount ⊢ <;> omega
  · exact absurd (hterm2 hB) hC
  · simp [hB, hC] at hcount ⊢ <;> omega
  · simp [hB, hC] at hcount ⊢ <;> omega

/-- Helper: one conservative call preserves the session invariant, and
afterwards the completion flag holds exactly when the counters reached
the total. -/
theorem applyCall_cpInv (cp : BatchProcessingCheckpoint) (u : UpdateCall)
    (hok : callOk cp u = true) (hinv : cpInv cp) :
    cpInv (applyCall cp u) ∧
    ((applyCall cp u).is_completed = true ↔
      (applyCall cp u).total_files ≤
        (applyCall cp u).completed_files + (applyCall cp u).failed_files) := by
  obtain ⟨e1, e2, e3, e4, e5⟩ := applyCall_fields cp u
  obtain ⟨hc, hf, hlen, hic⟩ := hinv
  have hmonoC : cp.completed_files ≤ (applyCall cp u).completed_files := by
    rw [e2]; split <;> omega
  have hmonoF : cp.failed_files ≤ (applyCall cp u).failed_files := by
    rw [e3]; split <;> omega
  have hicNew : (applyCall cp u).is_completed = true ↔
      (applyCall cp u).total_files ≤
        (applyCall cp u).completed_files + (applyCall cp u).failed_files := by
    rw [e5, e4]
    by_cases hreach : cp.total_files ≤
        (applyCall cp u).completed_files + (applyCall cp u).failed_files
    · simp [hreach]
    · simp only [if_neg hreach]
      constructor
      · intro hold
        exact absurd (le_trans (hic hold) (by omega)) hreach
      · intro h2
        exact absurd h2 hreach
  refine ⟨⟨?_, ?_, ?_, fun h => hicNew.mp h⟩, hicNew⟩
  · cases hfind : cp.files_state.find? (fun st => st.file_path == u.file_path) with
    | none =>
      have h1 : (updateFirst u.file_path
          (updateItem u.now u.status u.result_data u.error_message)
          cp.files_state).1 = none := by
        rw [updateFirst_fst, hfind]; rfl
      have h2 := updateFirst_snd_of_none u.file_path
        (updateItem u.now u.status u.result_data u.error_message)
        cp.files_state hfind
      rw [e2, e1, h1, h2]
      simpa [matchedWithOther] using hc
    | some st0 =>
      have h1 : (updateFirst u.file_path
          (updateItem u.now u.status u.result_data u.error_message)
          cp.files_state).1 = some st0.status := by
        rw [updateFirst_fst, hfind]; rfl
      have hokImp : terminalStatus st0.status = true → u.status = st0.status := by
        intro ht
        simp [callOk, hfind, ht] at hok
        exact hok
      rw [e2, e1, h1]
      simp only [matchedWithOther]
      exact counter_bound_aux u.file_path u.now u.status "completed"
        u.result_data u.error_message cp.files_state st0 hfind
        (fun h => by rw [hokImp (by simp [terminalStatus, h]), h])
        cp.completed_files hc
  · cases hfind : cp.files_state.find? (fun st => st.file_path == u.file_path) with
    | none =>
      have h1 : (updateFirst u.file_path
          (updateItem u.now u.status u.result_data u.error_message)
          cp.files_state).1 = none := by
        rw [updateFirst_fst, hfind]; rfl
      have h2 := updateFirst_snd_of_none u.file_path
        (updateItem u.now u.status u.result_data u.error_message)
        cp.files_state hfind
      rw [e3, e1, h1, h2]
      simpa [matchedWithOther] using hf
    | some st0 =>
      have h1 : (updateFirst u.file_path
          (updateItem u.now u.status u.result_data u.error_message)
          cp.files_state).1 = some st0.status := by
        rw [updateFirst_fst, hfind]; rfl
      have hokImp : terminalStatus st0.status = true → u.status = st0.status := by
        intro ht
        simp [callOk, hfind, ht] at hok
        exact hok
      rw [e3, e1, h1]
      simp only [matchedWithOther]
      exact counter_bound_aux u.file_path u.now u.status "failed"
        u.result_data u.error_message cp.files_state st0 hfind
        (fun h => by rw [hokImp (by simp [terminalStatus, h]), h])
        cp.failed_files hf
  · rw [e1, e4, updateFirst_length]
    exact hlen

/-- Helper: unfolding one call of a run. -/
theorem runUpdates_cons (cp : BatchProcessingCheckpoint) (u : UpdateCall)
    (us : List UpdateCall) :
    runUpdates cp (u :: us) = runUpdates (applyCall cp u) us := rfl

/-- Helper: one conservative call never changes the status of an item
already completed or failed. -/
theorem applyCall_preserves_terminal (cp : BatchProcessingCheckpoint)
    (u : UpdateCall) (hok : callOk cp u = true) (i : Nat)
    (st0 : FileProcessingState) (hget : cp.files_state[i]? = some st0)
    (hterm : terminalStatus st0.status = true) :
    ∃ st1, (applyCall cp u).files_state[i]? = some st1 ∧
      st1.status = st0.status := by
  have e1 : (applyCall cp u).files_state =
      (updateFirst u.file_path
        (updateItem u.now u.status u.result_data u.error_message)
        cp.files_state).2 := rfl
  rcases updateFirst_get u.file_path
      (updateItem u.now u.status u.result_data u.error_message)
      cp.files_state i st0 hget with hl | ⟨hfm, hr⟩
  · exact ⟨st0, by rw [e1]; exact hl, rfl⟩
  · have hokImp : u.status = st0.status := by
      simp [callOk, hfm, hterm] at hok
      exact hok
    refine ⟨_, by rw [e1]; exact hr, ?_⟩
    rw [updateItem_status]
    exact hokImp

/-- Helper: a call sequence is conservative exactly when its two halves
are, the second against the mid-run session. -/
theorem okSeq_append (cp : BatchProcessingCheckpoint)
    (a b : List UpdateCall) :
    okSeq cp (a ++ b) = (okSeq cp a && okSeq (runUpdates cp a) b) := by
  induction a generalizing cp with
  | nil => simp [okSeq, runUpdates]
  | cons u a ih =>
    simp [okSeq, runUpdates_cons, ih, Bool.and_assoc]

/-- Helper: the session invariant is preserved along any conservative
call sequence. -/
theorem runUpdates_cpInv (cp : BatchProcessingCheckpoint)
    (us : List UpdateCall) (hok : okSeq cp us = true) (hinv : cpInv cp) :
    cpInv (runUpdates cp us) := by
  induction us generalizing cp with
  | nil => exact hinv
  | cons u us ih =>
    simp only [okSeq, Bool.and_eq_true] at hok
    exact ih (applyCall cp u) hok.2 (applyCall_cpInv cp u hok.1 hinv).1

/-- Helper: a freshly created session satisfies the invariant. -/
theorem create_cpInv (fs : String → Except String (Nat × String))
    (now : String) (ts : Nat) (files : List String)
    (config : List (String × JVal)) (outdir : String)
    (sid : Option String) :
    cpInv (create_checkpoint fs now ts files config outdir sid) := by
  refine ⟨?_, ?_, ?_, ?_⟩ <;>
    simp [create_checkpoint, cpInv, countStatus]

/-- Helper: the completed and failed counts are disjoint, so their sum is
bounded by the item count. -/
theorem countStatus_disjoint_le (l : List FileProcessingState) :
    countStatus "completed" l + countStatus "failed" l ≤ l.length := by
  induction l with
  | nil => simp [countStatus]
  | cons st rest ih =>
    simp only [countStatus, List.filter_cons] at ih ⊢
    by_cases h1 : st.status = "completed" <;> by_cases h2 : st.status = "failed"
    · exact absurd (h1 ▸ h2) (by decide)
    · simp [h1, h2]; omega
    · simp [h1, h2]; omega
    · simp [h1, h2]; omega

/-- C2 (amended): update_file_status writes the requested status
unconditionally, so the monotonic-transition discipline is the callers
duty, not an enforced property; under call sequences that never request a
different status for an item already completed or failed, such an item
keeps its exact status through any number of calls. -/
theorem terminal_status_stable (us : List UpdateCall) :
    ∀ (cp : BatchProcessingCheckpoint), okSeq cp us = true →
      ∀ (i : Nat) (st0 : FileProcessingState),
        cp.files_state[i]? = some st0 →
        terminalStatus st0.status = true →
        ∃ st1, (runUpdates cp us).files_state[i]? = some st1 ∧
          st1.status = st0.status := by
  induction us with
  | nil =>
    intro cp _ i st0 hget _
    exact ⟨st0, hget, rfl⟩
  | cons u us ih =>
    intro cp hok i st0 hget hterm
    simp only [okSeq, Bool.and_eq_true] at hok
    obtain ⟨st1, h1, hs1⟩ :=
      applyCall_preserves_terminal cp u hok.1 i st0 hget hterm
    have ht1 : terminalStatus st1.status = true := by rw [hs1]; exact hterm
    obtain ⟨st2, h2, hs2⟩ := ih (applyCall cp u) hok.2 i st1 h1 ht1
    exact ⟨st2, h2, by rw [hs2, hs1]⟩

/-- C3 (amended): starting from a created session, along any
update_file_status sequence that never requests a different status for an
item already completed or failed, completed plus failed stays bounded by
the total, and — provided the sequence is nonempty or the total is
positive — the completion flag holds exactly when the counters reach the
total.  Without that discipline a completed-then-failed pair of calls on
one item double counts, and with an empty sequence over zero files the
flag stays false though the counters equal the total. -/
theorem counters_bounded_and_completion
    (fs : String → Except String (Nat × String)) (now : String) (ts : Nat)
    (files : List String) (config : List (String × JVal)) (outdir : String)
    (sid : Option String) (us : List UpdateCall)
    (hok : okSeq (create_checkpoint fs now ts files config outdir sid) us
      = true) :
    (runUpdates (create_checkpoint fs now ts files config outdir sid)
        us).completed_files +
      (runUpdates (create_checkpoint fs now ts files config outdir sid)
        us).failed_files ≤
      (runUpdates (create_checkpoint fs now ts files config outdir sid)
        us).total_files ∧
    ((us ≠ [] ∨ 0 < (runUpdates (create_checkpoint fs now ts files config
        outdir sid) us).total_files) →
      ((runUpdates (create_checkpoint fs now ts files config outdir sid)
          us).is_completed = true ↔
        (runUpdates (create_checkpoint fs now ts files config outdir sid)
            us).completed_files +
          (runUpdates (create_checkpoint fs now ts files config outdir sid)
            us).failed_files =
          (runUpdates (create_checkpoint fs now ts files config outdir sid)
            us).total_files)) := by
  have hinv0 := create_cpInv fs now ts files config outdir sid
  have hinv := runUpdates_cpInv _ us hok hinv0
  have hsum : (runUpdates (create_checkpoint fs now ts files config outdir
      sid) us).completed_files +
      (runUpdates (create_checkpoint fs now ts files config outdir sid)
        us).failed_files ≤
      (runUpdates (create_checkpoint fs now ts files config outdir sid)
        us).total_files := by
    obtain ⟨h1, h2, h3, _⟩ := hinv
    have := countStatus_disjoint_le
      (runUpdates (create_checkpoint fs now ts files config outdir sid)
        us).files_state
    omega
  refine ⟨hsum, ?_⟩
  intro hne
  rcases List.eq_nil_or_concat' us with rfl | ⟨a, u, rfl⟩
  · rcases hne with h | hpos
    · exact absurd rfl h
    · have h1 : (runUpdates (create_checkpoint fs now ts files config outdir
          sid) []).is_completed = false := rfl
      have h2 : (runUpdates (create_checkpoint fs now ts files config outdir
          sid) []).completed_files = 0 := rfl
      have h3 : (runUpdates (create_checkpoint fs now ts files config outdir
          sid) []).failed_files = 0 := rfl
      rw [h1, h2, h3]
      constructor
      · intro h; exact absurd h (by simp)
      · intro h; omega
  · rw [okSeq_append] at hok
    simp only [Bool.and_eq_true] at hok
    have hmid := runUpdates_cpInv _ a hok.1 hinv0
    have hlast := hok.2
    simp only [okSeq, Bool.and_eq_true] at hlast
    have hstep := applyCall_cpInv
      (runUpdates (create_checkpoint fs now ts files config outdir sid) a) u
      hlast.1 hmid
    have hcp : runUpdates (create_checkpoint fs now ts files config outdir
        sid) (a ++ [u]) =
        applyCall (runUpdates (create_checkpoint fs now ts files config
          outdir sid) a) u := by
      simp [runUpdates, List.foldl_append]
    rw [hcp] at hsum ⊢
    rcases hstep.2 with ⟨hmp, hmpr⟩
    constructor
    · intro h
      have h2 := hmp h
      omega
    · intro h
      exact hmpr (by omega)

/-- C10: an update_file_status call with no loaded session returns
normally leaving no session, and a call whose path matches no work item
leaves every item status and both counters unchanged. -/
theorem update_unmatched_noop (cp : BatchProcessingCheckpoint)
    (now file_path status : String)
    (rd : Option (List (String × JVal))) (em : Option String) :
    update_file_status_m none now file_path status rd em = none ∧
    (cp.files_state.find? (fun st => st.file_path == file_path) = none →
      (update_file_status cp now file_path status rd em).files_state =
        cp.files_state ∧
      (update_file_status cp now file_path status rd em).completed_files =
        cp.completed_files ∧
      (update_file_status cp now file_path status rd em).failed_files =
        cp.failed_files) := by
  refine ⟨rfl, fun hfind => ?_⟩
  have h1 : (updateFirst file_path (updateItem now status rd em)
      cp.files_state).1 = none := by
    rw [updateFirst_fst, hfind]; rfl
  have h2 := updateFirst_snd_of_none file_path (updateItem now status rd em)
    cp.files_state hfind
  have e1 : (update_file_status cp now file_path status rd em).files_state =
      (updateFirst file_path (updateItem now status rd em)
        cp.files_state).2 := rfl
  have e2 : (update_file_status cp now file_path status rd em).completed_files
      = cp.completed_files + (if status == "completed" && matchedWithOther
        (updateFirst file_path (updateItem now status rd em)
          cp.files_state).1 "completed" then 1 else 0) := rfl
  have e3 : (update_file_status cp now file_path status rd em).failed_files
      = cp.failed_files + (if status == "failed" && matchedWithOther
        (updateFirst file_path (updateItem now status rd em)
          cp.files_state).1 "failed" then 1 else 0) := rfl
  refine ⟨by rw [e1, h2], ?_, ?_⟩
  · rw [e2, h1]
    simp [matchedWithOther]
  · rw [e3, h1]
    simp [matchedWithOther]

/-- Witness for update_unmatched_noop at a concrete session and an
unmatched path. -/
theorem update_unmatched_noop_witness :
    update_file_status_m none "t" "b" "completed" none none = none ∧
    ((update_file_status (create_checkpoint (fun _ => Except.ok (1, "h"))
        "t0" 5 ["a"] [] "out" none) "t1" "b" "completed" none
        none).files_state =
      (create_checkpoint (fun _ => Except.ok (1, "h")) "t0" 5 ["a"] [] "out"
        none).files_state ∧
    (update_file_status (create_checkpoint (fun _ => Except.ok (1, "h"))
        "t0" 5 ["a"] [] "out" none) "t1" "b" "completed" none
        none).completed_files =
      (create_checkpoint (fun _ => Except.ok (1, "h")) "t0" 5 ["a"] [] "out"
        none).completed_files ∧
    (update_file_status (create_checkpoint (fun _ => Except.ok (1, "h"))
        "t0" 5 ["a"] [] "out" none) "t1" "b" "completed" none
        none).failed_files =
      (create_checkpoint (fun _ => Except.ok (1, "h")) "t0" 5 ["a"] [] "out"
        none).failed_files) := by
  have h := update_unmatched_noop (create_checkpoint
    (fun _ => Except.ok (1, "h")) "t0" 5 ["a"] [] "out" none)
    "t1" "b" "completed" none none
  exact ⟨h.1, h.2 rfl⟩

/-- C2 counterexample: a completed item reverts to pending when a later
call requests pending — the source applies any requested status
unconditionally, so transitions do leave the terminal statuses. -/
theorem terminal_status_overwrite_cex :
    ((applyCall (create_checkpoint (fun _ => Except.ok (1, "h")) "t0" 5 ["a"]
        [] "out" none)
      ⟨"t1", "a", "completed", none, none⟩).files_state.map
        FileProcessingState.status = ["completed"]) ∧
    ((applyCall (applyCall (create_checkpoint (fun _ => Except.ok (1, "h"))
        "t0" 5 ["a"] [] "out" none) ⟨"t1", "a", "completed", none, none⟩)
      ⟨"t2", "a", "pending", none, none⟩).files_state.map
        FileProcessingState.status = ["pending"]) := by
  exact ⟨rfl, rfl⟩

/-- Witness for terminal_status_stable at a concrete session holding one
completed item and one repeated completed call. -/
theorem terminal_status_stable_witness :
    ∃ st1,
      (runUpdates (applyCall (create_checkpoint (fun _ => Except.ok (1, "h"))
          "t0" 5 ["a"] [] "out" none) ⟨"t1", "a", "completed", none, none⟩)
        [⟨"t2", "a", "completed", none, none⟩]).files_state[0]? = some st1 ∧
      st1.status = ("completed" : String) :=
  terminal_status_stable [⟨"t2", "a", "completed", none, none⟩]
    (applyCall (create_checkpoint (fun _ => Except.ok (1, "h")) "t0" 5 ["a"]
      [] "out" none) ⟨"t1", "a", "completed", none, none⟩)
    rfl 0 ⟨"a", 1, "h", "completed", none, some "t1", none, none⟩ rfl rfl

/-- C3 counterexample: completing then failing the single file of a
session leaves completed plus failed at two against a total of one — the
invariant of the claim fails for unrestricted call sequences. -/
theorem counters_exceed_total_cex :
    (runUpdates (create_checkpoint (fun _ => Except.ok (1, "h")) "t0" 5 ["a"]
        [] "out" none)
      [⟨"t1", "a", "completed", none, none⟩,
       ⟨"t2", "a", "failed", none, none⟩]).completed_files +
      (runUpdates (create_checkpoint (fun _ => Except.ok (1, "h")) "t0" 5
          ["a"] [] "out" none)
        [⟨"t1", "a", "completed", none, none⟩,
         ⟨"t2", "a", "failed", none, none⟩]).failed_files = 2 ∧
    (runUpdates (create_checkpoint (fun _ => Except.ok (1, "h")) "t0" 5 ["a"]
        [] "out" none)
      [⟨"t1", "a", "completed", none, none⟩,
       ⟨"t2", "a", "failed", none, none⟩]).total_files = 1 := by
  exact ⟨rfl, rfl⟩

/-- Witness for counters_bounded_and_completion at a concrete session and
one completing call. -/
theorem counters_bounded_and_completion_witness :
    (runUpdates (create_checkpoint (fun _ => Except.ok (1, "h")) "t0" 5 ["a"]
        [] "out" none)
      [⟨"t1", "a", "completed", none, none⟩]).completed_files +
      (runUpdates (create_checkpoint (fun _ => Except.ok (1, "h")) "t0" 5
          ["a"] [] "out" none)
        [⟨"t1", "a", "completed", none, none⟩]).failed_files ≤
      (runUpdates (create_checkpoint (fun _ => Except.ok (1, "h")) "t0" 5
          ["a"] [] "out" none)
        [⟨"t1", "a", "completed", none, none⟩]).total_files ∧
    (([⟨"t1", "a", "completed", none, none⟩] : List UpdateCall) ≠ [] ∨
      0 < (runUpdates (create_checkpoint (fun _ => Except.ok (1, "h")) "t0" 5
          ["a"] [] "out" none)
        [⟨"t1", "a", "completed", none, none⟩]).total_files →
      ((runUpdates (create_checkpoint (fun _ => Except.ok (1, "h")) "t0" 5
          ["a"] [] "out" none)
        [⟨"t1", "a", "completed", none, none⟩]).is_completed = true ↔
        (runUpdates (create_checkpoint (fun _ => Except.ok (1, "h")) "t0" 5
            ["a"] [] "out" none)
          [⟨"t1", "a", "completed", none, none⟩]).completed_files +
          (runUpdates (create_checkpoint (fun _ => Except.ok (1, "h")) "t0" 5
              ["a"] [] "out" none)
            [⟨"t1", "a", "completed", none, none⟩]).failed_files =
          (runUpdates (create_checkpoint (fun _ => Except.ok (1, "h")) "t0" 5
              ["a"] [] "out" none)
            [⟨"t1", "a", "completed", none, none⟩]).total_files)) :=
  counters_bounded_and_completion (fun _ => Except.ok (1, "h")) "t0" 5 ["a"]
    [] "out" none [⟨"t1", "a", "completed", none, none⟩] rfl

/-- Helper: decoding inverts encoding on per-file states. -/
theorem decodeFileState_encode (st : FileProcessingState) :
    decodeFileState (encodeFileState st) = some st := by
  obtain ⟨fp, fsz, fh, stt, ot1, ot2, ot3, ord⟩ := st
  unfold decodeFileState encodeFileState
  cases ot1 <;> cases ot2 <;> cases ot3 <;> cases ord <;>
    simp [jLookup, List.lookup, decStr, decNat, decOptStr, decOptObj,
      encOptStr, encOptObj]

/-- Helper: decoding inverts encoding on state lists. -/
theorem decodeFilesState_encode (l : List FileProcessingState) :
    decodeStateList (l.map encodeFileState) = some l := by
  induction l with
  | nil => rfl
  | cons st rest ih =>
    simp [decodeStateList, decodeFileState_encode, ih]

/-- Helper: decoding inverts encoding on whole sessions. -/
theorem decodeCheckpoint_encode (cp : BatchProcessingCheckpoint) :
    decodeCheckpoint (encodeCheckpoint cp) = some cp := by
  unfold decodeCheckpoint encodeCheckpoint
  simp [jLookup, List.lookup, decStr, decNat, decBool, decConfig,
    decodeFilesState, decodeFilesState_encode]

/-- C7: create_checkpoint followed immediately by load_checkpoint of the
returned id succeeds and returns a session equal in all fields, per-file
states included, to the created one, whatever records the store already
held. -/
theorem create_then_load_roundtrip
    (fs : String → Except String (Nat × String)) (now : String) (ts : Nat)
    (files : List String) (config : List (String × JVal)) (outdir : String)
    (sid : Option String) (dir : CheckpointDir) :
    load_checkpoint
        (save_checkpoint dir (create_checkpoint fs now ts files config
          outdir sid))
        (create_checkpoint fs now ts files config outdir sid).checkpoint_id =
      some (create_checkpoint fs now ts files config outdir sid) := by
  unfold load_checkpoint save_checkpoint
  simp [List.lookup, decodeCheckpoint_encode]

/-- Helper: a property preserved by each fold step holds for the fold. -/
theorem foldl_preserve {α β : Type} (P : β → Prop) (step : β → α → β)
    (hstep : ∀ b a, P b → P (step b a)) :
    ∀ (l : List α) (b : β), P b → P (l.foldl step b) := by
  intro l
  induction l with
  | nil => intro b h; exact h
  | cons a l ih =>
    intro b h
    exact ih (step b a) (hstep b a h)

/-- Helper: inserting a record preserves distinct keys and nonempty
buckets. -/
theorem addTerm_inv (m : List (String × List CollectedTerm)) (k : String)
    (v : CollectedTerm) (h : aggInv m) : aggInv (addTerm m k v) := by
  obtain ⟨hnd, hne⟩ := h
  unfold addTerm
  by_cases hmem : m.any (fun p => p.1 == k) = true
  · rw [if_pos hmem]
    constructor
    · have hkeys :
          (m.map (fun p => if p.1 == k then (p.1, p.2 ++ [v]) else p)).map
            Prod.fst = m.map Prod.fst := by
        rw [List.map_map]
        apply List.map_congr_left
        intro p _
        simp only [Function.comp_apply]
        split <;> rfl
      rw [hkeys]
      exact hnd
    · intro p hp
      rw [List.mem_map] at hp
      obtain ⟨q, hq, rfl⟩ := hp
      by_cases hp : (q.1 == k) = true
      · simp [hp]
      · simp only [hp, if_neg]
        simp only [Bool.false_eq_true, if_false]
        exact hne q hq
  · rw [if_neg hmem]
    have hkout : k ∉ m.map Prod.fst := by
      intro hk
      rw [List.mem_map] at hk
      obtain ⟨p, hp, hpk⟩ := hk
      apply hmem
      rw [List.any_eq_true]
      exact ⟨p, hp, by simp [hpk]⟩
    constructor
    · rw [List.map_append]
      apply List.Nodup.append hnd (by simp)
      intro a ha hb
      simp at hb
      subst hb
      exact hkout ha
    · intro p hp
      rw [List.mem_append] at hp
      rcases hp with hp | hp
      · exact hne p hp
      · simp at hp
        subst hp
        simp

/-- Helper: the aggregation map of _collect_all_terms always has distinct
keys and nonempty buckets. -/
theorem collect_all_terms_inv (case_sensitive : Bool)
    (results : List UnitResult) :
    aggInv (collect_all_terms case_sensitive results) := by
  unfold collect_all_terms
  refine foldl_preserve aggInv _ ?_ results [] ⟨by simp, by simp⟩
  intro m r hm
  refine foldl_preserve aggInv _ ?_ r.terms m hm
  intro m2 t hm2
  exact addTerm_inv m2 _ _ hm2

/-- Helper: the duplicate counter accumulates bucket size minus one over
all (nonempty) buckets. -/
theorem dup_fold_eq (m : List (String × List CollectedTerm))
    (hne : ∀ p ∈ m, p.2 ≠ []) :
    ∀ acc : Nat,
      m.foldl (fun acc p =>
        acc + (if 1 < p.2.length then p.2.length - 1 else 0)) acc +
        m.length =
      acc + (m.map (fun p => p.2.length)).sum := by
  induction m with
  | nil => intro acc; simp
  | cons p rest ih =>
    intro acc
    simp only [List.foldl_cons, List.map_cons, List.sum_cons,
      List.length_cons]
    have hp : p.2 ≠ [] := hne p (by simp)
    have hlen : 1 ≤ p.2.length := by
      cases hl : p.2 with
      | nil => exact absurd hl hp
      | cons a l => simp [hl]
    have hite : (if 1 < p.2.length then p.2.length - 1 else 0) =
        p.2.length - 1 := by
      split <;> omega
    have hrec := ih (fun q hq => hne q (by simp [hq]))
      (acc + (if 1 < p.2.length then p.2.length - 1 else 0))
    rw [hite] at hrec
    rw [hite]
    omega

/-- Helper: a successful merge yields exactly one merged term per
bucket. -/
theorem mergeTermsList_length :
    ∀ (m : List (String × List CollectedTerm)) (ms : List MergedTerm),
      mergeTermsList m = some ms → ms.length = m.length := by
  intro m
  induction m with
  | nil =>
    intro ms h
    simp [mergeTermsList] at h
    rw [h]
    rfl
  | cons p rest ih =>
    intro ms h
    simp only [mergeTermsList, Option.bind_eq_bind] at h
    cases h1 : merge_term_info p.2 with
    | none => rw [h1] at h; simp at h
    | some mt =>
      rw [h1] at h
      cases h2 : mergeTermsList rest with
      | none => rw [h2] at h; simp at h
      | some tl =>
        rw [h2] at h
        simp at h
        rw [← h]
        simp [ih tl h2]

/-- C8 (amended): on every results list for which deduplicate_terms
completes — the source raises KeyError when a bucket whose first record
is old-format also holds a bilingual record, which requires an
old-format term containing a bar to collide with a bilingual key — the
normalized keys of the aggregation map are pairwise distinct, the merged
output carries exactly one entry per distinct key, and the reported
duplicate count equals the total number of collected records minus the
number of distinct keys.  The key distinctness itself holds for every
input. -/
theorem deduplicate_terms_unique_keys (case_sensitive : Bool)
    (results : List UnitResult) (out : MergedResult)
    (hsome : deduplicate_terms case_sensitive results = some out) :
    ((collect_all_terms case_sensitive results).map Prod.fst).Nodup ∧
    out.terms.length = (collect_all_terms case_sensitive results).length ∧
    out.duplicates_removed +
        (collect_all_terms case_sensitive results).length =
      out.original_terms := by
  have hinv := collect_all_terms_inv case_sensitive results
  simp only [deduplicate_terms, merge_duplicate_terms,
    Option.bind_eq_bind] at hsome
  cases hms : mergeTermsList (collect_all_terms case_sensitive results) with
  | none => rw [hms] at hsome; simp at hsome
  | some ms =>
    rw [hms] at hsome
    simp at hsome
    refine ⟨hinv.1, ?_, ?_⟩
    · rw [← hsome]
      simp [mergeTermsList_length (collect_all_terms case_sensitive results)
        ms hms]
    · rw [← hsome]
      have h := dup_fold_eq (collect_all_terms case_sensitive results)
        hinv.2 0
      simpa [totalCollected] using h

/-- Witness for deduplicate_terms_unique_keys at the specification
scenario: two bilingual records for INS sharing one case-insensitive key
merge successfully into one entry with one duplicate removed. -/
theorem deduplicate_terms_unique_keys_witness :
    ∃ out : MergedResult,
      deduplicate_terms false
        [{ custom_id := "c1", source_file := "f1",
           terms := [{ eng_term := some "INS",
                       zh_term := some "惯性导航系统" }] },
         { custom_id := "c2", source_file := "f2",
           terms := [{ eng_term := some "ins",
                       zh_term := some "惯性导航系统" }] }] = some out ∧
      (((collect_all_terms false
          [{ custom_id := "c1", source_file := "f1",
             terms := [{ eng_term := some "INS",
                         zh_term := some "惯性导航系统" }] },
           { custom_id := "c2", source_file := "f2",
             terms := [{ eng_term := some "ins",
                         zh_term := some "惯性导航系统" }] }]).map
            Prod.fst).Nodup ∧
        out.terms.length = (collect_all_terms false
          [{ custom_id := "c1", source_file := "f1",
             terms := [{ eng_term := some "INS",
                         zh_term := some "惯性导航系统" }] },
           { custom_id := "c2", source_file := "f2",
             terms := [{ eng_term := some "ins",
                         zh_term := some "惯性导航系统" }] }]).length ∧
        out.duplicates_removed + (collect_all_terms false
          [{ custom_id := "c1", source_file := "f1",
             terms := [{ eng_term := some "INS",
                         zh_term := some "惯性导航系统" }] },
           { custom_id := "c2", source_file := "f2",
             terms := [{ eng_term := some "ins",
                         zh_term := some "惯性导航系统" }] }]).length =
          out.original_terms) :=
  ⟨_, rfl, deduplicate_terms_unique_keys _ _ _ rfl⟩

/-- C8 counterexample: an old-format record whose term text contains a
bar shares its normalized key with a bilingual record; the mixed bucket
starts with the old-format record, whose text does not start uppercase,
so _select_best_term reaches the bilingual record and its bracket access
term_info with key original_term raises KeyError: deduplicate_terms
produces no merged output at all for this input, refuting the claim as
universally stated. -/
theorem deduplicate_terms_keyerror_cex :
    deduplicate_terms false
      [{ custom_id := "c1", source_file := "f1",
         terms := [{ term := some "a|b" },
                   { eng_term := some "a", zh_term := some "b" }] }] =
      none := by decide
